import Mathlib

/-! # FacialRecognition: containment, eye/face correlation and presence tracking

A shallow embedding of the pure and stateful core of the Go program:

* `misc.RectIsContained` (src/misc/UIfunctions.go),
* `facialDetector.filterEyesInFaces`, `detectAll`, `processFrame` and
  `newFacialDetector` (src/detectors/face.go),
* the call to `logging.LogDetectedFace` (src/logging/logging.go), whose
  outcome (error or nil) is an input of the frame step.

Go `int` coordinates are only ever compared, never added, so they are `Int`.
A `time.Time` is an instant in nanoseconds counted from Go's zero instant
(January 1, year 1, 00:00:00 UTC); a `time.Duration` is an `int64` nanosecond
count and `Time.Sub` saturates to its range, as the standard library does.
The cascade classifiers are external: their outputs are inputs of `detectAll`.
-/

namespace FacialRecognition

/-! ## image.Point, image.Rectangle -/

/-- Go `image.Point`. -/
structure Point where
  X : Int
  Y : Int
  deriving DecidableEq, Repr

/-- Go `image.Rectangle`. -/
structure Rectangle where
  Min : Point
  Max : Point
  deriving DecidableEq, Repr

/-- Shorthand `(minX, minY, maxX, maxY)`, as `image.Rect` would build it for ordered corners. -/
def mkRect (x0 y0 x1 y1 : Int) : Rectangle := ⟨⟨x0, y0⟩, ⟨x1, y1⟩⟩

namespace misc

/-- Go `misc.RectIsContained`: true if `inner` is completely inside `outer`. -/
def RectIsContained (inner outer : Rectangle) : Bool :=
  decide (outer.Min.X ≤ inner.Min.X) &&
    decide (outer.Min.Y ≤ inner.Min.Y) &&
    decide (outer.Max.X ≥ inner.Max.X) &&
    decide (outer.Max.Y ≥ inner.Max.Y)

end misc

/-- The containment predicate in the words of the specification, section 4.1:
`contains(outer, inner)` with non-strict inequalities on all four edges. -/
def specContains (outer inner : Rectangle) : Prop :=
  outer.Min.X ≤ inner.Min.X ∧ outer.Min.Y ≤ inner.Min.Y ∧
    outer.Max.X ≥ inner.Max.X ∧ outer.Max.Y ≥ inner.Max.Y

/-! ## filterEyesInFaces -/

/-- The inner loop over `frontalFaces` for one eye. On the first containing face
the eye is appended and control jumps to `nextEye` (flag `true`); when the loop
runs to its end, `validEyes` is unchanged and control falls through (flag `false`). -/
def frontalLoop (eye : Rectangle) (validEyes : List Rectangle) :
    List Rectangle → List Rectangle × Bool
  | [] => (validEyes, false)
  | face :: rest =>
    if misc.RectIsContained eye face then (validEyes ++ [eye], true)
    else frontalLoop eye validEyes rest

/-- The inner loop over `sideFaces` for one eye: on the first containing face the
eye is appended and the loop is left with `break`. -/
def sideLoop (eye : Rectangle) (validEyes : List Rectangle) :
    List Rectangle → List Rectangle
  | [] => validEyes
  | face :: rest =>
    if misc.RectIsContained eye face then validEyes ++ [eye]
    else sideLoop eye validEyes rest

/-- The outer loop `for _, eye := range eyes` with accumulator `validEyes`. -/
def eyesLoop (frontalFaces sideFaces : List Rectangle) (validEyes : List Rectangle) :
    List Rectangle → List Rectangle
  | [] => validEyes
  | eye :: rest =>
    match frontalLoop eye validEyes frontalFaces with
    | (validEyes1, true) => eyesLoop frontalFaces sideFaces validEyes1 rest
    | (validEyes1, false) =>
      eyesLoop frontalFaces sideFaces (sideLoop eye validEyes1 sideFaces) rest

/-- Go `facialDetector.filterEyesInFaces`: `validEyes` starts as the nil slice. -/
def filterEyesInFaces (eyes frontalFaces sideFaces : List Rectangle) : List Rectangle :=
  eyesLoop frontalFaces sideFaces [] eyes

/-- The acceptance predicate of claim C2: the eye is contained in some face of
either list. -/
def inSomeFace (frontalFaces sideFaces : List Rectangle) (eye : Rectangle) : Bool :=
  frontalFaces.any (fun face => misc.RectIsContained eye face) ||
    sideFaces.any (fun face => misc.RectIsContained eye face)

/-! ## time.Time and time.Duration -/

namespace time

/-! A Go `Time` is an `Int`: the instant in nanoseconds counted from the zero
instant, so the zero value of the type is `0`. A Go `Duration` is an `Int`
too: a nanosecond count, which the program holds in an `int64`. -/

/-- Go `time.Second`. -/
def Second : Int := 1000000000

/-- Smallest `int64` duration. -/
def minDuration : Int := -9223372036854775808

/-- Largest `int64` duration. -/
def maxDuration : Int := 9223372036854775807

/-- Go `Time.IsZero`: whether the instant is the zero value of `time.Time`. -/
def IsZero (t : Int) : Bool := decide (t = 0)

/-- Go `Time.Sub`: the duration `t - u`, saturated to the `int64` range. -/
def Sub (t u : Int) : Int :=
  if t - u > maxDuration then maxDuration
  else if t - u < minDuration then minDuration
  else t - u

end time

/-! ## logging.LogDetectedFace -/

namespace logging

/-- Go `logging.LogDetectedFace`. The outcome of `os.OpenFile` on the log file
is an input: when the open fails the function returns an error, otherwise it
appends one line (the result of `Write` is ignored) and returns nil. -/
def LogDetectedFace (openFails : Bool) : Option String :=
  if openFails then some "error loading not open log file: log.txt" else none

end logging

/-! ## facialDetector, detectAll, processFrame -/

/-- The presence-tracking fields of Go `facialDetector`. The classifier handles
and the detection parameters are only handed to the external detector, whose
outputs are inputs here. -/
structure facialDetector where
  lastFaceDetectedTime : Int
  faceAbsentLogged : Bool
  faceTimeout : Int
  deriving DecidableEq, Repr

/-- Go `newFacialDetector`: the three arguments say whether each cascade file
loads. On success the tracking fields are the zero instant, `false` and 30 s. -/
def newFacialDetector (frontalLoads sideLoads eyeLoads : Bool) :
    Except String facialDetector :=
  let fd : facialDetector :=
    { lastFaceDetectedTime := 0, faceAbsentLogged := false, faceTimeout := 30 * time.Second }
  if !frontalLoads then
    .error "error loading frontal face cascade: data/haarcascade_frontalface_default.xml"
  else if !sideLoads then
    .error "error loading side face cascade: data/haarcascade_profileface.xml"
  else if !eyeLoads then
    .error "error loading eye cascade: data/haarcascade_eye.xml"
  else .ok fd

/-- Go `detectionResult`. -/
structure detectionResult where
  FrontalFaces : List Rectangle
  SideFaces : List Rectangle
  Eyes : List Rectangle
  ValidEyes : List Rectangle
  deriving DecidableEq, Repr

/-- What the outside world supplies for one frame: the boxes the three cascade
classifiers return on the image, the reading of `time.Now()`, and whether
opening the log file would fail should `LogDetectedFace` be called. -/
structure Frame where
  frontalFaces : List Rectangle
  sideFaces : List Rectangle
  eyes : List Rectangle
  currentTime : Int
  logOpenFails : Bool
  deriving DecidableEq, Repr

/-- Go `facialDetector.detectAll`, the classifier outputs being those of the frame. -/
def detectAll (img : Frame) : detectionResult :=
  { FrontalFaces := img.frontalFaces
    SideFaces := img.sideFaces
    Eyes := img.eyes
    ValidEyes := filterEyesInFaces img.eyes img.frontalFaces img.sideFaces }

/-- The observable actions of `processFrame`, in program order. -/
inductive Effect where
  /-- Models `log.Printf("Face reappeared after absence, logging")`. -/
  | logReappeared
  /-- Models the call `logging.LogDetectedFace()`. -/
  | callLogDetectedFace
  /-- Models `log.Printf("Could not access logging file, ...: %v", err)`. -/
  | logWriteFailed (err : String)
  /-- Models `log.Println("Writing to file successful")`. -/
  | logWriteOk
  /-- Models `log.Printf("Face not detected for %v", fd.faceTimeout)`. -/
  | logAbsent (timeout : Int)
  /-- Models `fmt.Printf("Found %d front face(s), ...")` with its four counts. -/
  | printFound (front side eyes valid : Nat)
  /-- Models `fd.DrawDetections(img, result)`. -/
  | drawDetections (result : detectionResult)
  deriving DecidableEq, Repr

/-- The presence signal of `processFrame`:
`len(result.FrontalFaces) > 0 || len(result.SideFaces) > 0`. -/
def facesDetected (result : detectionResult) : Bool :=
  decide (result.FrontalFaces.length > 0) || decide (result.SideFaces.length > 0)

/-- Go `facialDetector.processFrame`: the detector after the frame and the
actions performed. -/
def processFrame (fd : facialDetector) (img : Frame) : facialDetector × List Effect :=
  let result := detectAll img
  let currentTime := img.currentTime
  let tracked : facialDetector × List Effect :=
    if facesDetected result then
      let logged : facialDetector × List Effect :=
        if fd.faceAbsentLogged then
          let err := logging.LogDetectedFace img.logOpenFails
          ({ fd with faceAbsentLogged := false },
            [Effect.logReappeared, Effect.callLogDetectedFace,
              match err with
              | some e => Effect.logWriteFailed e
              | none => Effect.logWriteOk])
        else (fd, [])
      ({ logged.1 with lastFaceDetectedTime := currentTime }, logged.2)
    else
      if !time.IsZero fd.lastFaceDetectedTime then
        let timeSinceFace := time.Sub currentTime fd.lastFaceDetectedTime
        if decide (timeSinceFace ≥ fd.faceTimeout) && !fd.faceAbsentLogged then
          ({ fd with faceAbsentLogged := true }, [Effect.logAbsent fd.faceTimeout])
        else (fd, [])
      else (fd, [])
  (tracked.1,
    tracked.2 ++
      [Effect.printFound result.FrontalFaces.length result.SideFaces.length
          result.Eyes.length result.ValidEyes.length,
        Effect.drawDetections result])

/-! ## Presence events read off the actions -/

/-- The presence events of the specification, section 3. -/
inductive PresenceEvent where
  | None
  | AbsenceConfirmed
  | PresenceRegained
  deriving DecidableEq, Repr

/-- Whether an action is the "Face not detected for ..." log line. -/
def Effect.isLogAbsent : Effect → Bool
  | .logAbsent _ => true
  | _ => false

/-- The event a frame produced: `PresenceRegained` when the branch that calls
`logging.LogDetectedFace` ran, `AbsenceConfirmed` when the branch that sets
`faceAbsentLogged` and logs the absence ran, `None` otherwise. -/
def eventOf (trace : List Effect) : PresenceEvent :=
  if Effect.callLogDetectedFace ∈ trace then PresenceEvent.PresenceRegained
  else if trace.any Effect.isLogAbsent then PresenceEvent.AbsenceConfirmed
  else PresenceEvent.None

/-- The event of one frame. -/
def frameEvent (fd : facialDetector) (img : Frame) : PresenceEvent :=
  eventOf (processFrame fd img).2

/-- The detection loop of `DetectFacialFeatures` over the frames that reach
`processFrame`: the final detector and the event of each frame, in order. -/
def runFrames (fd : facialDetector) : List Frame → facialDetector × List PresenceEvent
  | [] => (fd, [])
  | img :: rest =>
    let next := runFrames (processFrame fd img).1 rest
    (next.1, frameEvent fd img :: next.2)

/-- Whether the frame shows a face to the tracker. -/
def Frame.seen (img : Frame) : Bool := facesDetected (detectAll img)

/-! ## Predicates used to state the debounce property -/

/-- A detector that has recorded a sighting at `t0` and no absence, with the
30 second timeout. -/
def sightedAt (fd : facialDetector) (t0 : Int) : Prop :=
  fd.lastFaceDetectedTime = t0 ∧ time.IsZero t0 = false ∧
    fd.faceAbsentLogged = false ∧ fd.faceTimeout = 30 * time.Second

instance (fd : facialDetector) (t0 : Int) : Decidable (sightedAt fd t0) := by
  unfold sightedAt; infer_instance

/-- The first frame at or past the timeout: frame `i` is at least 30 s after
`t0` and every earlier frame is less than 30 s after it. -/
def firstPastTimeout (t0 : Int) (frames : List Frame) (i : Nat) : Prop :=
  (∃ img, frames[i]? = some img ∧ 30 * time.Second ≤ img.currentTime - t0) ∧
    ∀ j img, j < i → frames[j]? = some img → img.currentTime - t0 < 30 * time.Second

/-! ## Containment -/

theorem rectIsContained_iff (inner outer : Rectangle) :
    misc.RectIsContained inner outer = true ↔
      outer.Min.X ≤ inner.Min.X ∧ outer.Min.Y ≤ inner.Min.Y ∧
        inner.Max.X ≤ outer.Max.X ∧ inner.Max.Y ≤ outer.Max.Y := by
  simp [misc.RectIsContained, and_assoc]

/-- C1: `misc.RectIsContained inner outer` is true exactly when the four
non-strict edge inequalities hold, that is, exactly when the specification's
`contains(outer, inner)` holds; rectangles are arbitrary integer quadruples, so
degenerate and touching ones are covered (a rectangle contains itself, and a
zero-area rectangle on the border of another is contained in it). -/
theorem C1_rectIsContained_spec :
    (∀ inner outer : Rectangle,
      (misc.RectIsContained inner outer = true ↔
        outer.Min.X ≤ inner.Min.X ∧ outer.Min.Y ≤ inner.Min.Y ∧
          outer.Max.X ≥ inner.Max.X ∧ outer.Max.Y ≥ inner.Max.Y) ∧
      (misc.RectIsContained inner outer = true ↔ specContains outer inner)) ∧
    (∀ r : Rectangle, misc.RectIsContained r r = true) ∧
    misc.RectIsContained (mkRect 0 5 0 5) (mkRect 0 0 10 10) = true ∧
    misc.RectIsContained (mkRect 0 0 11 10) (mkRect 0 0 10 10) = false := by
  refine ⟨fun inner outer => ⟨?_, ?_⟩, fun r => ?_, by decide, by decide⟩
  · simpa [ge_iff_le] using rectIsContained_iff inner outer
  · simpa [specContains, ge_iff_le] using rectIsContained_iff inner outer
  · simp [misc.RectIsContained]

/-! ## The correlator as a filter -/

theorem frontalLoop_eq (eye : Rectangle) (validEyes faces : List Rectangle) :
    frontalLoop eye validEyes faces =
      if faces.any (fun face => misc.RectIsContained eye face) then (validEyes ++ [eye], true)
      else (validEyes, false) := by
  induction faces with
  | nil => simp [frontalLoop]
  | cons face rest ih =>
    by_cases h : misc.RectIsContained eye face = true
    · simp [frontalLoop, h]
    · simp [frontalLoop, h, ih]

theorem sideLoop_eq (eye : Rectangle) (validEyes faces : List Rectangle) :
    sideLoop eye validEyes faces =
      if faces.any (fun face => misc.RectIsContained eye face) then validEyes ++ [eye]
      else validEyes := by
  induction faces with
  | nil => simp [sideLoop]
  | cons face rest ih =>
    by_cases h : misc.RectIsContained eye face = true
    · simp [sideLoop, h]
    · simp [sideLoop, h, ih]

theorem eyesLoop_eq (frontalFaces sideFaces : List Rectangle) (eyes : List Rectangle) :
    ∀ validEyes : List Rectangle,
      eyesLoop frontalFaces sideFaces validEyes eyes =
        validEyes ++ eyes.filter (inSomeFace frontalFaces sideFaces) := by
  induction eyes with
  | nil => intro validEyes; simp [eyesLoop]
  | cons eye rest ih =>
    intro validEyes
    rw [eyesLoop, frontalLoop_eq]
    by_cases hf : frontalFaces.any (fun face => misc.RectIsContained eye face) = true
    · have hin : inSomeFace frontalFaces sideFaces eye = true := by
        simp only [inSomeFace, hf, Bool.true_or]
      simp only [hf, if_true, ih, List.filter_cons, hin, List.append_assoc,
        List.singleton_append]
    · have hf2 : frontalFaces.any (fun face => misc.RectIsContained eye face) = false := by
        simpa using hf
      by_cases hs : sideFaces.any (fun face => misc.RectIsContained eye face) = true
      · have hin : inSomeFace frontalFaces sideFaces eye = true := by
          simp only [inSomeFace, hs, Bool.or_true]
        simp only [hf2, Bool.false_eq_true, if_false, sideLoop_eq, hs, if_true, ih,
          List.filter_cons, hin, List.append_assoc, List.singleton_append]
      · have hs2 : sideFaces.any (fun face => misc.RectIsContained eye face) = false := by
          simpa using hs
        have hin : inSomeFace frontalFaces sideFaces eye = false := by
          simp only [inSomeFace, hf2, hs2, Bool.or_self]
        simp only [hf2, Bool.false_eq_true, if_false, sideLoop_eq, hs2, ih,
          List.filter_cons, hin]

theorem filterEyesInFaces_eq_filter (eyes frontalFaces sideFaces : List Rectangle) :
    filterEyesInFaces eyes frontalFaces sideFaces =
      eyes.filter (inSomeFace frontalFaces sideFaces) := by
  simp [filterEyesInFaces, eyesLoop_eq]

theorem inSomeFace_iff (frontalFaces sideFaces : List Rectangle) (eye : Rectangle) :
    inSomeFace frontalFaces sideFaces eye = true ↔
      ∃ face, (face ∈ frontalFaces ∨ face ∈ sideFaces) ∧
        misc.RectIsContained eye face = true := by
  simp only [inSomeFace, Bool.or_eq_true, List.any_eq_true]
  constructor
  · rintro (⟨f, hf, hc⟩ | ⟨f, hf, hc⟩)
    · exact ⟨f, Or.inl hf, hc⟩
    · exact ⟨f, Or.inr hf, hc⟩
  · rintro ⟨f, hf | hf, hc⟩
    · exact Or.inl ⟨f, hf, hc⟩
    · exact Or.inr ⟨f, hf, hc⟩

theorem inSomeFace_comm (frontalFaces sideFaces : List Rectangle) :
    inSomeFace frontalFaces sideFaces = inSomeFace sideFaces frontalFaces := by
  funext eye
  simp only [inSomeFace, Bool.or_comm]

/-- C2: `filterEyesInFaces` is the filter of `eyes`, in input order and with
each occurrence kept once, by "contained in some frontal or side face"; so the
result is a sublist of `eyes`, every accepted eye is an input eye contained in
an input face, an eye contained in no face is dropped, and an accepted eye
occurs in the result as often as in the input. -/
theorem C2_filterEyesInFaces_is_filter (eyes frontalFaces sideFaces : List Rectangle) :
    filterEyesInFaces eyes frontalFaces sideFaces =
        eyes.filter (inSomeFace frontalFaces sideFaces) ∧
      (∀ eye, inSomeFace frontalFaces sideFaces eye = true ↔
        ∃ face, (face ∈ frontalFaces ∨ face ∈ sideFaces) ∧
          misc.RectIsContained eye face = true) ∧
      List.Sublist (filterEyesInFaces eyes frontalFaces sideFaces) eyes ∧
      (∀ eye ∈ filterEyesInFaces eyes frontalFaces sideFaces,
        eye ∈ eyes ∧ ∃ face, (face ∈ frontalFaces ∨ face ∈ sideFaces) ∧
          misc.RectIsContained eye face = true) ∧
      (∀ eye ∈ eyes,
        (∀ face, face ∈ frontalFaces ∨ face ∈ sideFaces →
          misc.RectIsContained eye face = false) →
        eye ∉ filterEyesInFaces eyes frontalFaces sideFaces) ∧
      (∀ eye, (∃ face, (face ∈ frontalFaces ∨ face ∈ sideFaces) ∧
          misc.RectIsContained eye face = true) →
        (filterEyesInFaces eyes frontalFaces sideFaces).count eye = eyes.count eye) := by
  rw [filterEyesInFaces_eq_filter]
  refine ⟨rfl, inSomeFace_iff frontalFaces sideFaces, List.filter_sublist eyes, ?_, ?_, ?_⟩
  · intro eye h
    rw [List.mem_filter] at h
    exact ⟨h.1, (inSomeFace_iff frontalFaces sideFaces eye).1 h.2⟩
  · intro eye _ hno h
    rw [List.mem_filter] at h
    obtain ⟨face, hface, hc⟩ := (inSomeFace_iff frontalFaces sideFaces eye).1 h.2
    rw [hno face hface] at hc
    exact Bool.false_ne_true hc
  · intro eye h
    rw [List.count_filter ((inSomeFace_iff frontalFaces sideFaces eye).2 h)]

/-- C2 at a concrete frame: of three eyes, the one outside both faces is
dropped and the repeated one inside the side face is kept twice, in order. -/
theorem C2_filterEyesInFaces_is_filter_witness :
    filterEyesInFaces [mkRect 60 60 70 70, mkRect 500 500 510 510, mkRect 60 60 70 70]
        [mkRect 0 0 50 50] [mkRect 40 40 100 100] =
      [mkRect 60 60 70 70, mkRect 60 60 70 70] ∧
    mkRect 500 500 510 510 ∉
      filterEyesInFaces [mkRect 60 60 70 70, mkRect 500 500 510 510, mkRect 60 60 70 70]
        [mkRect 0 0 50 50] [mkRect 40 40 100 100] :=
  ⟨by decide,
    (C2_filterEyesInFaces_is_filter
      [mkRect 60 60 70 70, mkRect 500 500 510 510, mkRect 60 60 70 70]
      [mkRect 0 0 50 50] [mkRect 40 40 100 100]).2.2.2.2.1 (mkRect 500 500 510 510)
      (by decide)
      (by
        intro face hface
        rcases hface with h | h <;> rw [List.mem_singleton] at h <;> subst h <;> decide)⟩

/-- C7: swapping the frontal and the profile list never changes the result of
`filterEyesInFaces`; an eye contained in both a frontal and a profile face is
accepted and occurs in the result exactly as often as in the input, once for a
single eye, as in the example eye (10,10,20,20), frontal (0,0,100,100),
profile (0,0,50,50). -/
theorem C7_priority_irrelevant :
    (∀ eyes F P : List Rectangle, filterEyesInFaces eyes F P = filterEyesInFaces eyes P F) ∧
    (∀ (eyes F P : List Rectangle) (eye : Rectangle), eye ∈ eyes →
      (∃ f ∈ F, misc.RectIsContained eye f = true) →
      (∃ p ∈ P, misc.RectIsContained eye p = true) →
      eye ∈ filterEyesInFaces eyes F P ∧
        (filterEyesInFaces eyes F P).count eye = eyes.count eye) ∧
    (∀ eye f p : Rectangle, misc.RectIsContained eye f = true →
      misc.RectIsContained eye p = true → filterEyesInFaces [eye] [f] [p] = [eye]) ∧
    filterEyesInFaces [mkRect 10 10 20 20] [mkRect 0 0 100 100] [mkRect 0 0 50 50] =
      [mkRect 10 10 20 20] := by
  refine ⟨?_, ?_, ?_, by decide⟩
  · intro eyes F P
    rw [filterEyesInFaces_eq_filter, filterEyesInFaces_eq_filter, inSomeFace_comm]
  · rintro eyes F P eye hmem ⟨f, hf, hc⟩ _
    have hin : inSomeFace F P eye = true :=
      (inSomeFace_iff F P eye).2 ⟨f, Or.inl hf, hc⟩
    rw [filterEyesInFaces_eq_filter]
    exact ⟨List.mem_filter.2 ⟨hmem, hin⟩, List.count_filter hin⟩
  · intro eye f p hf _
    have hin : inSomeFace [f] [p] eye = true :=
      (inSomeFace_iff [f] [p] eye).2 ⟨f, Or.inl (List.mem_singleton.2 rfl), hf⟩
    rw [filterEyesInFaces_eq_filter, List.filter_cons, hin]
    rfl

/-- C7 at the example of the specification, with the two lists swapped. -/
theorem C7_priority_irrelevant_witness :
    filterEyesInFaces [mkRect 10 10 20 20] [mkRect 0 0 100 100] [mkRect 0 0 50 50] =
        filterEyesInFaces [mkRect 10 10 20 20] [mkRect 0 0 50 50] [mkRect 0 0 100 100] ∧
    (filterEyesInFaces [mkRect 10 10 20 20] [mkRect 0 0 100 100] [mkRect 0 0 50 50]).count
        (mkRect 10 10 20 20) = 1 :=
  ⟨C7_priority_irrelevant.1 [mkRect 10 10 20 20] [mkRect 0 0 100 100] [mkRect 0 0 50 50],
    (C7_priority_irrelevant.2.1 [mkRect 10 10 20 20] [mkRect 0 0 100 100] [mkRect 0 0 50 50]
      (mkRect 10 10 20 20) (by decide) ⟨mkRect 0 0 100 100, by decide, by decide⟩
      ⟨mkRect 0 0 50 50, by decide, by decide⟩).2⟩

/-- C8, as stated, fails: with one eye inside one frontal face every eye is
valid, so `ValidEyes` is all of `Eyes` and the subset is not strict. -/
theorem C8_strict_subset_fails :
    ¬ (filterEyesInFaces [mkRect 10 10 20 20] [mkRect 0 0 100 100] [] ⊆ [mkRect 10 10 20 20] ∧
        filterEyesInFaces [mkRect 10 10 20 20] [mkRect 0 0 100 100] [] ≠
          [mkRect 10 10 20 20]) := by
  intro h
  exact h.2 (by decide)

/-- C8, amended: `ValidEyes` is a sublist of `Eyes`, not necessarily a strict
one; it is all of `Eyes` exactly when every eye is contained in some frontal or
side face (so also when there are no eyes). -/
theorem C8_valid_eyes_subset (img : Frame) :
    (detectAll img).ValidEyes = filterEyesInFaces img.eyes img.frontalFaces img.sideFaces ∧
      (detectAll img).Eyes = img.eyes ∧
      (detectAll img).ValidEyes ⊆ (detectAll img).Eyes ∧
      List.Sublist (detectAll img).ValidEyes (detectAll img).Eyes ∧
      ((detectAll img).ValidEyes = (detectAll img).Eyes ↔
        ∀ eye ∈ img.eyes, ∃ face, (face ∈ img.frontalFaces ∨ face ∈ img.sideFaces) ∧
          misc.RectIsContained eye face = true) := by
  simp only [detectAll, filterEyesInFaces_eq_filter]
  refine ⟨trivial, trivial, (List.filter_sublist img.eyes).subset,
    List.filter_sublist img.eyes, ?_⟩
  rw [List.filter_eq_self]
  exact forall_congr' fun eye => imp_congr_right fun _ =>
    inSomeFace_iff img.frontalFaces img.sideFaces eye

/-! ## One step of the presence tracker -/

theorem sub_ge_iff (t u d : Int)
    (hlo : time.minDuration < d) (hhi : d ≤ time.maxDuration) :
    time.Sub t u ≥ d ↔ d ≤ t - u := by
  unfold time.Sub
  unfold time.minDuration at hlo
  unfold time.maxDuration at hhi
  simp only [time.minDuration, time.maxDuration]
  split_ifs with h1 h2 <;> constructor <;> intro h <;> omega

theorem sub_ge_thirty (t u : Int) :
    time.Sub t u ≥ 30 * time.Second ↔ 30 * time.Second ≤ t - u :=
  sub_ge_iff t u (30 * time.Second) (by decide) (by decide)

theorem seen_iff (img : Frame) :
    img.seen = true ↔ img.frontalFaces ≠ [] ∨ img.sideFaces ≠ [] := by
  simp [Frame.seen, facesDetected, detectAll, List.length_pos]

theorem processFrame_seen (fd : facialDetector) (img : Frame) (h : img.seen = true) :
    (processFrame fd img).1 =
        { lastFaceDetectedTime := img.currentTime, faceAbsentLogged := false,
          faceTimeout := fd.faceTimeout } ∧
      frameEvent fd img =
        (if fd.faceAbsentLogged then PresenceEvent.PresenceRegained else PresenceEvent.None) ∧
      (Effect.callLogDetectedFace ∈ (processFrame fd img).2 ↔ fd.faceAbsentLogged = true) := by
  have h1 : facesDetected (detectAll img) = true := h
  cases hflag : fd.faceAbsentLogged <;>
    simp [processFrame, frameEvent, h1, hflag, eventOf, Effect.isLogAbsent]

theorem processFrame_unseen (fd : facialDetector) (img : Frame) (h : img.seen = false) :
    (processFrame fd img).1 =
        (if time.IsZero fd.lastFaceDetectedTime = false ∧
            time.Sub img.currentTime fd.lastFaceDetectedTime ≥ fd.faceTimeout ∧
            fd.faceAbsentLogged = false
          then { fd with faceAbsentLogged := true } else fd) ∧
      frameEvent fd img =
        (if time.IsZero fd.lastFaceDetectedTime = false ∧
            time.Sub img.currentTime fd.lastFaceDetectedTime ≥ fd.faceTimeout ∧
            fd.faceAbsentLogged = false
          then PresenceEvent.AbsenceConfirmed else PresenceEvent.None) ∧
      Effect.callLogDetectedFace ∉ (processFrame fd img).2 := by
  have h1 : facesDetected (detectAll img) = false := h
  cases hz : time.IsZero fd.lastFaceDetectedTime <;>
    cases hflag : fd.faceAbsentLogged <;>
    by_cases hge : time.Sub img.currentTime fd.lastFaceDetectedTime ≥ fd.faceTimeout <;>
    simp [processFrame, frameEvent, h1, hflag, hz, hge, eventOf, Effect.isLogAbsent]

/-! ## Runs of no-face frames -/

theorem step_before_timeout (fd : facialDetector) (t0 : Int) (img : Frame)
    (hfd : sightedAt fd t0) (hno : img.seen = false)
    (hlt : img.currentTime - t0 < 30 * time.Second) :
    (processFrame fd img).1 = fd ∧ frameEvent fd img = PresenceEvent.None := by
  obtain ⟨h1, h2, h3, h4⟩ := hfd
  obtain ⟨hs, he, _⟩ := processFrame_unseen fd img hno
  have hnot : ¬ time.Sub img.currentTime fd.lastFaceDetectedTime ≥ fd.faceTimeout := by
    rw [h1, h4, sub_ge_thirty]; omega
  rw [hs, he]
  simp [hnot]

theorem step_at_timeout (fd : facialDetector) (t0 : Int) (img : Frame)
    (hfd : sightedAt fd t0) (hno : img.seen = false)
    (hge : 30 * time.Second ≤ img.currentTime - t0) :
    (processFrame fd img).1 = { fd with faceAbsentLogged := true } ∧
      frameEvent fd img = PresenceEvent.AbsenceConfirmed := by
  obtain ⟨h1, h2, h3, h4⟩ := hfd
  obtain ⟨hs, he, _⟩ := processFrame_unseen fd img hno
  have hyes : time.Sub img.currentTime fd.lastFaceDetectedTime ≥ fd.faceTimeout := by
    rw [h1, h4, sub_ge_thirty]; exact hge
  have hz : time.IsZero fd.lastFaceDetectedTime = false := by rw [h1]; exact h2
  rw [hs, he]
  simp [hyes, hz, h3]

theorem run_after_confirmed (frames : List Frame) :
    ∀ fd : facialDetector, fd.faceAbsentLogged = true →
      (∀ img ∈ frames, img.seen = false) →
      runFrames fd frames = (fd, List.replicate frames.length PresenceEvent.None) := by
  induction frames with
  | nil => intro fd _ _; rfl
  | cons img rest ih =>
    intro fd hflag hno
    obtain ⟨hs, he, _⟩ := processFrame_unseen fd img (hno img (List.mem_cons_self _ _))
    have hs2 : (processFrame fd img).1 = fd := by rw [hs]; simp [hflag]
    have he2 : frameEvent fd img = PresenceEvent.None := by rw [he]; simp [hflag]
    have hrest := ih fd hflag (fun g hg => hno g (List.mem_cons_of_mem _ hg))
    simp [runFrames, hs2, he2, hrest, List.replicate_succ]

theorem run_never_seen (frames : List Frame) :
    ∀ fd : facialDetector, time.IsZero fd.lastFaceDetectedTime = true →
      (∀ img ∈ frames, img.seen = false) →
      runFrames fd frames = (fd, List.replicate frames.length PresenceEvent.None) := by
  induction frames with
  | nil => intro fd _ _; rfl
  | cons img rest ih =>
    intro fd hz hno
    obtain ⟨hs, he, _⟩ := processFrame_unseen fd img (hno img (List.mem_cons_self _ _))
    have hs2 : (processFrame fd img).1 = fd := by rw [hs]; simp [hz]
    have he2 : frameEvent fd img = PresenceEvent.None := by rw [he]; simp [hz]
    have hrest := ih fd hz (fun g hg => hno g (List.mem_cons_of_mem _ hg))
    simp [runFrames, hs2, he2, hrest, List.replicate_succ]

theorem run_length (frames : List Frame) :
    ∀ fd : facialDetector, (runFrames fd frames).2.length = frames.length := by
  induction frames with
  | nil => intro fd; rfl
  | cons img rest ih => intro fd; simp [runFrames, ih]

theorem firstPastTimeout_zero (t0 : Int) (img : Frame) (rest : List Frame) :
    firstPastTimeout t0 (img :: rest) 0 ↔ 30 * time.Second ≤ img.currentTime - t0 := by
  simp [firstPastTimeout]

theorem firstPastTimeout_succ (t0 : Int) (img : Frame) (rest : List Frame) (i : Nat) :
    firstPastTimeout t0 (img :: rest) (i + 1) ↔
      img.currentTime - t0 < 30 * time.Second ∧ firstPastTimeout t0 rest i := by
  unfold firstPastTimeout
  constructor
  · rintro ⟨⟨g, hg, hge⟩, hall⟩
    refine ⟨hall 0 img (Nat.succ_pos i) (by simp), ⟨g, by simpa using hg, hge⟩, ?_⟩
    intro j g2 hj hg2
    exact hall (j + 1) g2 (Nat.succ_lt_succ hj) (by simpa using hg2)
  · rintro ⟨hlt, ⟨g, hg, hge⟩, hall⟩
    refine ⟨⟨g, by simpa using hg, hge⟩, ?_⟩
    intro j g2 hj hg2
    cases j with
    | zero =>
      have : img = g2 := by simpa using hg2
      rw [← this]; exact hlt
    | succ k => exact hall k g2 (Nat.lt_of_succ_lt_succ hj) (by simpa using hg2)

theorem run_events_get (t0 : Int) (frames : List Frame) :
    ∀ (fd : facialDetector) (i : Nat), sightedAt fd t0 →
      (∀ img ∈ frames, img.seen = false) → i < frames.length →
      (firstPastTimeout t0 frames i →
        (runFrames fd frames).2[i]? = some PresenceEvent.AbsenceConfirmed) ∧
      (¬ firstPastTimeout t0 frames i →
        (runFrames fd frames).2[i]? = some PresenceEvent.None) := by
  induction frames with
  | nil => intro fd i _ _ hi; simp at hi
  | cons img rest ih =>
    intro fd i hfd hno hi
    have hno0 := hno img (List.mem_cons_self _ _)
    have hnoR : ∀ g ∈ rest, g.seen = false := fun g hg => hno g (List.mem_cons_of_mem _ hg)
    by_cases hge : 30 * time.Second ≤ img.currentTime - t0
    · obtain ⟨hs, he⟩ := step_at_timeout fd t0 img hfd hno0 hge
      have hrest := run_after_confirmed rest { fd with faceAbsentLogged := true } rfl hnoR
      cases i with
      | zero => simp [runFrames, he, firstPastTimeout_zero, hge]
      | succ k =>
        have hk : k < rest.length := by simpa using hi
        have hnf : ¬ firstPastTimeout t0 (img :: rest) (k + 1) := by
          rw [firstPastTimeout_succ]; intro h; omega
        simp [runFrames, hs, hrest, hnf, hk]
    · have hlt : img.currentTime - t0 < 30 * time.Second := by omega
      obtain ⟨hs, he⟩ := step_before_timeout fd t0 img hfd hno0 hlt
      cases i with
      | zero => simp [runFrames, he, firstPastTimeout_zero, hge]
      | succ k =>
        have hk : k < rest.length := by simpa using hi
        have := ih fd k hfd hnoR hk
        simpa [runFrames, hs, firstPastTimeout_succ, hlt] using this

theorem run_events_count (t0 : Int) (frames : List Frame) :
    ∀ fd : facialDetector, sightedAt fd t0 → (∀ img ∈ frames, img.seen = false) →
      (runFrames fd frames).2.count PresenceEvent.AbsenceConfirmed ≤ 1 ∧
      PresenceEvent.PresenceRegained ∉ (runFrames fd frames).2 ∧
      (runFrames fd frames).1.lastFaceDetectedTime = t0 ∧
      ((runFrames fd frames).1.faceAbsentLogged = true ↔
        ∃ img ∈ frames, 30 * time.Second ≤ img.currentTime - t0) := by
  induction frames with
  | nil => intro fd hfd _; simp [runFrames, hfd.1, hfd.2.2.1]
  | cons img rest ih =>
    intro fd hfd hno
    have hno0 := hno img (List.mem_cons_self _ _)
    have hnoR : ∀ g ∈ rest, g.seen = false := fun g hg => hno g (List.mem_cons_of_mem _ hg)
    by_cases hge : 30 * time.Second ≤ img.currentTime - t0
    · obtain ⟨hs, he⟩ := step_at_timeout fd t0 img hfd hno0 hge
      have hrest := run_after_confirmed rest { fd with faceAbsentLogged := true } rfl hnoR
      simp only [runFrames, hs, he, hrest]
      simp [hfd.1, hge, List.count_cons, List.count_replicate]
    · have hlt : img.currentTime - t0 < 30 * time.Second := by omega
      obtain ⟨hs, he⟩ := step_before_timeout fd t0 img hfd hno0 hlt
      obtain ⟨h1, h2, h3, h4⟩ := ih fd hfd hnoR
      simp [runFrames, hs, he, List.count_cons, h1, h2, h3, h4, hge]

/-! ## The presence claims -/

/-- C3: presence debounce with the 30 s timeout. From a detector whose last
sighting was at the clock reading `t0` (so not the zero instant, which stands
for "never seen") and with `faceAbsentLogged = false`, a run of no-face frames
yields one event per frame; a frame less than 30 s after `t0` yields `None`; the
first frame at least 30 s after `t0` yields `AbsenceConfirmed`; every frame after
such a frame yields `None`; so `AbsenceConfirmed` occurs at most once, no
`PresenceRegained` occurs, the sighting time is kept, and `faceAbsentLogged` ends
true exactly when some frame reached the timeout. The frame times may come in
any order, in particular non-decreasing. -/
theorem C3_presence_debounce (fd : facialDetector) (t0 : Int) (frames : List Frame)
    (hlast : fd.lastFaceDetectedTime = t0) (hsighted : time.IsZero t0 = false)
    (hflag : fd.faceAbsentLogged = false) (htimeout : fd.faceTimeout = 30 * time.Second)
    (hno : ∀ img ∈ frames, img.seen = false) :
    (runFrames fd frames).2.length = frames.length ∧
    (∀ (i : Nat) (img : Frame), frames[i]? = some img → img.currentTime - t0 < 30 * time.Second →
      (runFrames fd frames).2[i]? = some PresenceEvent.None) ∧
    (∀ (i : Nat) (img : Frame), frames[i]? = some img → 30 * time.Second ≤ img.currentTime - t0 →
      (∀ (j : Nat) (g : Frame), j < i → frames[j]? = some g → g.currentTime - t0 < 30 * time.Second) →
      (runFrames fd frames).2[i]? = some PresenceEvent.AbsenceConfirmed) ∧
    (∀ (i j : Nat) (img : Frame), i < j → j < frames.length → frames[i]? = some img →
      30 * time.Second ≤ img.currentTime - t0 →
      (runFrames fd frames).2[j]? = some PresenceEvent.None) ∧
    (runFrames fd frames).2.count PresenceEvent.AbsenceConfirmed ≤ 1 ∧
    PresenceEvent.PresenceRegained ∉ (runFrames fd frames).2 ∧
    (runFrames fd frames).1.lastFaceDetectedTime = t0 ∧
    ((runFrames fd frames).1.faceAbsentLogged = true ↔
      ∃ img ∈ frames, 30 * time.Second ≤ img.currentTime - t0) := by
  have hfd : sightedAt fd t0 := ⟨hlast, hsighted, hflag, htimeout⟩
  have hlen : ∀ (i : Nat) (img : Frame), frames[i]? = some img → i < frames.length := by
    intro i img h
    by_contra hc
    rw [List.getElem?_eq_none (Nat.le_of_not_lt hc)] at h
    exact Option.noConfusion h
  refine ⟨run_length frames fd, ?_, ?_, ?_, run_events_count t0 frames fd hfd hno⟩
  · intro i img hi hlt
    refine (run_events_get t0 frames fd i hfd hno (hlen i img hi)).2 ?_
    rintro ⟨⟨g, hg, hge⟩, _⟩
    rw [hi] at hg
    cases hg
    omega
  · intro i img hi hge hall
    exact (run_events_get t0 frames fd i hfd hno (hlen i img hi)).1 ⟨⟨img, hi, hge⟩, hall⟩
  · intro i j img hij hj hi hge
    refine (run_events_get t0 frames fd j hfd hno hj).2 ?_
    rintro ⟨_, hall⟩
    have := hall i img hij hi
    omega

/-- C3 at a concrete run: sighting at instant 5, no-face frames 29 s, 30 s and
31 s later. -/
theorem C3_presence_debounce_witness :
    (runFrames ⟨5, false, 30 * time.Second⟩
        [⟨[], [], [], 5 + 29 * time.Second, false⟩, ⟨[], [], [], 5 + 30 * time.Second, false⟩,
          ⟨[], [], [], 5 + 31 * time.Second, false⟩]).2 =
      [PresenceEvent.None, PresenceEvent.AbsenceConfirmed, PresenceEvent.None] ∧
    (runFrames ⟨5, false, 30 * time.Second⟩
        [⟨[], [], [], 5 + 29 * time.Second, false⟩, ⟨[], [], [], 5 + 30 * time.Second, false⟩,
          ⟨[], [], [], 5 + 31 * time.Second, false⟩]).2.count
      PresenceEvent.AbsenceConfirmed ≤ 1 :=
  ⟨by decide,
    (C3_presence_debounce ⟨5, false, 30 * time.Second⟩ 5
      [⟨[], [], [], 5 + 29 * time.Second, false⟩, ⟨[], [], [], 5 + 30 * time.Second, false⟩,
        ⟨[], [], [], 5 + 31 * time.Second, false⟩]
      rfl (by decide) rfl rfl (by decide)).2.2.2.2.1⟩

/-- C4: on a frame with faces seen, `PresenceRegained` (the branch that calls
`logging.LogDetectedFace`) is produced exactly when `faceAbsentLogged` was true
before the call, and no event otherwise; afterwards `faceAbsentLogged` is false
and `lastFaceDetectedTime` is the frame time. With the 30 s timeout and no
absence logged, seen at `t0`, not seen 5 s later, seen 6 s later yields no event;
seen at a clock reading `t0`, not seen 31 s later, seen 32 s later yields
`None`, `AbsenceConfirmed`, `PresenceRegained`. -/
theorem C4_presence_regained :
    (∀ (fd : facialDetector) (img : Frame), img.seen = true →
      (frameEvent fd img = PresenceEvent.PresenceRegained ↔ fd.faceAbsentLogged = true) ∧
      (Effect.callLogDetectedFace ∈ (processFrame fd img).2 ↔ fd.faceAbsentLogged = true) ∧
      (fd.faceAbsentLogged = false → frameEvent fd img = PresenceEvent.None) ∧
      (processFrame fd img).1.faceAbsentLogged = false ∧
      (processFrame fd img).1.lastFaceDetectedTime = img.currentTime) ∧
    (∀ (fd : facialDetector) (t0 : Int) (a b c : Frame),
      fd.faceAbsentLogged = false → fd.faceTimeout = 30 * time.Second →
      a.seen = true → b.seen = false → c.seen = true →
      a.currentTime = t0 → b.currentTime = t0 + 5 * time.Second →
      c.currentTime = t0 + 6 * time.Second →
      (runFrames fd [a, b, c]).2 =
        [PresenceEvent.None, PresenceEvent.None, PresenceEvent.None]) ∧
    (∀ (fd : facialDetector) (t0 : Int) (a b c : Frame),
      fd.faceAbsentLogged = false → fd.faceTimeout = 30 * time.Second →
      time.IsZero t0 = false →
      a.seen = true → b.seen = false → c.seen = true →
      a.currentTime = t0 → b.currentTime = t0 + 31 * time.Second →
      c.currentTime = t0 + 32 * time.Second →
      (runFrames fd [a, b, c]).2 =
        [PresenceEvent.None, PresenceEvent.AbsenceConfirmed,
          PresenceEvent.PresenceRegained]) := by
  refine ⟨?_, ?_, ?_⟩
  · intro fd img hseen
    obtain ⟨hs, he, hc⟩ := processFrame_seen fd img hseen
    refine ⟨?_, hc, ?_, by rw [hs], by rw [hs]⟩
    · rw [he]; cases fd.faceAbsentLogged <;> simp
    · intro h; rw [he, h]; rfl
  · intro fd t0 a b c hflag hto ha hb hc hta htb htc
    obtain ⟨hsa, hea, _⟩ := processFrame_seen fd a ha
    rw [hta, hto] at hsa
    rw [hflag] at hea
    have hquiet : (processFrame (processFrame fd a).1 b).1 = (processFrame fd a).1 ∧
        frameEvent (processFrame fd a).1 b = PresenceEvent.None := by
      cases hz : time.IsZero t0
      · refine step_before_timeout _ t0 b ?_ hb ?_
        · rw [hsa]; exact ⟨rfl, hz, rfl, rfl⟩
        · rw [htb]; simp only [time.Second]; omega
      · obtain ⟨hsb, heb, _⟩ := processFrame_unseen (processFrame fd a).1 b hb
        rw [hsb, heb, hsa]
        simp [hz]
    obtain ⟨_, hec, _⟩ := processFrame_seen (processFrame (processFrame fd a).1 b).1 c hc
    have hflag2 : (processFrame (processFrame fd a).1 b).1.faceAbsentLogged = false := by
      rw [hquiet.1, hsa]
    rw [hflag2] at hec
    simp [runFrames, hea, hquiet.2, hec]
  · intro fd t0 a b c hflag hto hz ha hb hc hta htb htc
    obtain ⟨hsa, hea, _⟩ := processFrame_seen fd a ha
    rw [hta, hto] at hsa
    rw [hflag] at hea
    have hfire := step_at_timeout (processFrame fd a).1 t0 b
      (by rw [hsa]; exact ⟨rfl, hz, rfl, rfl⟩) hb
      (by rw [htb]; simp only [time.Second]; omega)
    obtain ⟨_, hec, _⟩ := processFrame_seen (processFrame (processFrame fd a).1 b).1 c hc
    have hflag2 : (processFrame (processFrame fd a).1 b).1.faceAbsentLogged = true := by
      rw [hfire.1]
    rw [hflag2] at hec
    simp [runFrames, hea, hfire.2, hec]

/-- C4 at concrete runs from the detector built by `newFacialDetector`: a face
regained after a confirmed absence is logged, a face regained after a 5 s gap
is not. -/
theorem C4_presence_regained_witness :
    frameEvent ⟨7, true, 30 * time.Second⟩ ⟨[mkRect 0 0 200 200], [], [], 9, false⟩ =
        PresenceEvent.PresenceRegained ∧
    (runFrames ⟨0, false, 30 * time.Second⟩
        [⟨[mkRect 0 0 200 200], [], [], 1000, false⟩,
          ⟨[], [], [], 1000 + 31 * time.Second, false⟩,
          ⟨[], [mkRect 0 0 200 200], [], 1000 + 32 * time.Second, false⟩]).2 =
      [PresenceEvent.None, PresenceEvent.AbsenceConfirmed, PresenceEvent.PresenceRegained] :=
  ⟨((C4_presence_regained.1 ⟨7, true, 30 * time.Second⟩
      ⟨[mkRect 0 0 200 200], [], [], 9, false⟩ (by decide)).1).2 rfl,
    C4_presence_regained.2.2 ⟨0, false, 30 * time.Second⟩ 1000
      ⟨[mkRect 0 0 200 200], [], [], 1000, false⟩
      ⟨[], [], [], 1000 + 31 * time.Second, false⟩
      ⟨[], [mkRect 0 0 200 200], [], 1000 + 32 * time.Second, false⟩
      rfl rfl (by decide) (by decide) (by decide) (by decide) rfl rfl rfl⟩

/-- C5: in the state produced by `newFacialDetector` (zero sighting time, no
absence logged, 30 s timeout) a no-face frame at any time produces no event and
leaves the detector unchanged; so any finite run of no-face frames from that
state leaves it unchanged and produces only `None`. -/
theorem C5_initial_state_quiet (frontalLoads sideLoads eyeLoads : Bool) (fd : facialDetector)
    (hnew : newFacialDetector frontalLoads sideLoads eyeLoads = Except.ok fd) :
    fd = ⟨0, false, 30 * time.Second⟩ ∧
    time.IsZero fd.lastFaceDetectedTime = true ∧
    (∀ img : Frame, img.seen = false →
      (processFrame fd img).1 = fd ∧ frameEvent fd img = PresenceEvent.None) ∧
    (∀ frames : List Frame, (∀ img ∈ frames, img.seen = false) →
      (runFrames fd frames).1 = fd ∧
      (runFrames fd frames).2 = List.replicate frames.length PresenceEvent.None ∧
      PresenceEvent.AbsenceConfirmed ∉ (runFrames fd frames).2 ∧
      PresenceEvent.PresenceRegained ∉ (runFrames fd frames).2) := by
  have hfd : fd = ⟨0, false, 30 * time.Second⟩ := by
    unfold newFacialDetector at hnew
    cases frontalLoads <;> cases sideLoads <;> cases eyeLoads <;> simp at hnew
    exact hnew.symm
  have hz : time.IsZero fd.lastFaceDetectedTime = true := by rw [hfd]; rfl
  refine ⟨hfd, hz, ?_, ?_⟩
  · intro img hno
    have h := run_never_seen [img] fd hz (by simpa using hno)
    simp [runFrames] at h
    exact h
  · intro frames hno
    have h := run_never_seen frames fd hz hno
    rw [h]
    refine ⟨rfl, rfl, ?_, ?_⟩ <;>
    · intro hmem
      have := List.eq_of_mem_replicate hmem
      exact PresenceEvent.noConfusion this

/-- C5 at a concrete run: from the freshly built detector, two no-face frames
(the second a hundred years in) produce no event. -/
theorem C5_initial_state_quiet_witness :
    newFacialDetector true true true = Except.ok ⟨0, false, 30 * time.Second⟩ ∧
    (runFrames ⟨0, false, 30 * time.Second⟩
        [⟨[], [], [mkRect 1 1 2 2], 40 * time.Second, false⟩,
          ⟨[], [], [], 3155760000 * time.Second, false⟩]).2 =
      [PresenceEvent.None, PresenceEvent.None] :=
  ⟨rfl, ((C5_initial_state_quiet true true true ⟨0, false, 30 * time.Second⟩ rfl).2.2.2
    [⟨[], [], [mkRect 1 1 2 2], 40 * time.Second, false⟩,
      ⟨[], [], [], 3155760000 * time.Second, false⟩] (by decide)).2.1⟩

/-- C6: transition invariant of one `processFrame` call, for every detector,
frame and time. `faceAbsentLogged` goes from true to false only on a frame with
faces seen; it goes from false to true only on a no-face frame, with
`lastFaceDetectedTime` set (not the zero instant) and
`currentTime.Sub(lastFaceDetectedTime) >= faceTimeout` (the plain difference
when the timeout is above the least `int64`), and that is exactly when
`AbsenceConfirmed` is produced; a no-face frame never changes
`lastFaceDetectedTime`, and no frame changes `faceTimeout`. -/
theorem C6_transition_invariant (fd : facialDetector) (img : Frame) :
    (fd.faceAbsentLogged = true → (processFrame fd img).1.faceAbsentLogged = false →
      img.seen = true) ∧
    (fd.faceAbsentLogged = false → (processFrame fd img).1.faceAbsentLogged = true →
      img.seen = false ∧ time.IsZero fd.lastFaceDetectedTime = false ∧
        time.Sub img.currentTime fd.lastFaceDetectedTime ≥ fd.faceTimeout ∧
        (time.minDuration < fd.faceTimeout →
          fd.faceTimeout ≤ img.currentTime - fd.lastFaceDetectedTime)) ∧
    (frameEvent fd img = PresenceEvent.AbsenceConfirmed ↔
      fd.faceAbsentLogged = false ∧ (processFrame fd img).1.faceAbsentLogged = true) ∧
    (img.seen = false →
      (processFrame fd img).1.lastFaceDetectedTime = fd.lastFaceDetectedTime) ∧
    (processFrame fd img).1.faceTimeout = fd.faceTimeout := by
  cases hseen : img.seen
  · obtain ⟨hs, he, _⟩ := processFrame_unseen fd img hseen
    rw [hs, he]
    by_cases hcond : time.IsZero fd.lastFaceDetectedTime = false ∧
        time.Sub img.currentTime fd.lastFaceDetectedTime ≥ fd.faceTimeout ∧
        fd.faceAbsentLogged = false
    · rw [if_pos hcond, if_pos hcond]
      refine ⟨?_, ?_, ?_, fun _ => rfl, rfl⟩
      · intro h; rw [hcond.2.2] at h; exact absurd h Bool.false_ne_true
      · intro _ _
        refine ⟨rfl, hcond.1, hcond.2.1, fun hmin => ?_⟩
        have hge := hcond.2.1
        unfold time.Sub at hge
        unfold time.minDuration at hmin
        simp only [time.minDuration, time.maxDuration] at hge
        split_ifs at hge <;> omega
      · simp [hcond.2.2]
    · rw [if_neg hcond, if_neg hcond]
      refine ⟨?_, ?_, ?_, fun _ => rfl, rfl⟩
      · intro h1 h2; rw [h1] at h2; exact absurd h2 (by decide)
      · intro h1 h2; rw [h1] at h2; exact absurd h2 (by decide)
      · constructor
        · intro h; exact PresenceEvent.noConfusion h
        · rintro ⟨h1, h2⟩; rw [h1] at h2; exact absurd h2 (by decide)
  · obtain ⟨hs, he, _⟩ := processFrame_seen fd img hseen
    rw [hs, he]
    refine ⟨fun _ _ => rfl, ?_, ?_, ?_, rfl⟩
    · intro _ h; exact absurd h Bool.false_ne_true
    · cases fd.faceAbsentLogged <;> simp
    · intro h; exact Bool.noConfusion h

/-- C6 is not vacuous: both transitions of `faceAbsentLogged` occur, the first
on a no-face frame 30 s after a sighting, the second on a frame with a face. -/
theorem C6_transition_invariant_witness :
    ((processFrame ⟨5, false, 30 * time.Second⟩
        ⟨[], [], [], 5 + 30 * time.Second, false⟩).1.faceAbsentLogged = true ∧
      (⟨[], [], [], 5 + 30 * time.Second, false⟩ : Frame).seen = false ∧
      time.Sub (5 + 30 * time.Second) 5 ≥ 30 * time.Second) ∧
    ((processFrame ⟨5, true, 30 * time.Second⟩
        ⟨[mkRect 0 0 200 200], [], [], 5 + 40 * time.Second, false⟩).1.faceAbsentLogged = false ∧
      (⟨[mkRect 0 0 200 200], [], [], 5 + 40 * time.Second, false⟩ : Frame).seen = true) :=
  ⟨⟨by decide,
      ((C6_transition_invariant ⟨5, false, 30 * time.Second⟩
        ⟨[], [], [], 5 + 30 * time.Second, false⟩).2.1 rfl (by decide)).1,
      ((C6_transition_invariant ⟨5, false, 30 * time.Second⟩
        ⟨[], [], [], 5 + 30 * time.Second, false⟩).2.1 rfl (by decide)).2.2.1⟩,
    by decide,
    (C6_transition_invariant ⟨5, true, 30 * time.Second⟩
      ⟨[mkRect 0 0 200 200], [], [], 5 + 40 * time.Second, false⟩).1 rfl (by decide)⟩

/-- C9: when a face reappears after a logged absence, the detector after the
frame is the same whether `logging.LogDetectedFace` returns an error or nil:
`faceAbsentLogged` is false and `lastFaceDetectedTime` is the frame time. The
log call is made once in that frame, the failure is only reported, and the next
frame, whatever it shows, does not call `logging.LogDetectedFace`. -/
theorem C9_log_failure_not_retried (fd : facialDetector) (img : Frame)
    (hflag : fd.faceAbsentLogged = true) (hseen : img.seen = true) :
    (processFrame fd { img with logOpenFails := true }).1 =
        (processFrame fd { img with logOpenFails := false }).1 ∧
    (processFrame fd img).1 =
        { lastFaceDetectedTime := img.currentTime, faceAbsentLogged := false,
          faceTimeout := fd.faceTimeout } ∧
    (processFrame fd img).2.count Effect.callLogDetectedFace = 1 ∧
    (img.logOpenFails = true →
      Effect.logWriteFailed "error loading not open log file: log.txt" ∈
        (processFrame fd img).2) ∧
    frameEvent fd { img with logOpenFails := true } = PresenceEvent.PresenceRegained ∧
    (∀ next : Frame,
      Effect.callLogDetectedFace ∉ (processFrame (processFrame fd img).1 next).2 ∧
      frameEvent (processFrame fd img).1 next ≠ PresenceEvent.PresenceRegained) := by
  have hs1 : ({ img with logOpenFails := true } : Frame).seen = true := hseen
  have hs0 : ({ img with logOpenFails := false } : Frame).seen = true := hseen
  obtain ⟨hs, _, _⟩ := processFrame_seen fd img hseen
  obtain ⟨hsT, heT, _⟩ := processFrame_seen fd { img with logOpenFails := true } hs1
  obtain ⟨hsF, _, _⟩ := processFrame_seen fd { img with logOpenFails := false } hs0
  have hd : facesDetected (detectAll img) = true := hseen
  refine ⟨by rw [hsT, hsF], hs, ?_, ?_, by rw [heT, hflag]; rfl, ?_⟩
  · cases hlog : img.logOpenFails <;>
      simp [processFrame, hd, hflag, hlog, logging.LogDetectedFace, List.count_cons]
  · intro hlog
    simp [processFrame, hd, hflag, hlog, logging.LogDetectedFace]
  · intro next
    have hpost : (processFrame fd img).1.faceAbsentLogged = false := by rw [hs]
    cases hn : next.seen
    · obtain ⟨_, he, hc⟩ := processFrame_unseen (processFrame fd img).1 next hn
      refine ⟨hc, ?_⟩
      rw [he]
      split_ifs <;> exact fun h => PresenceEvent.noConfusion h
    · obtain ⟨_, he, hc⟩ := processFrame_seen (processFrame fd img).1 next hn
      refine ⟨fun h => ?_, ?_⟩
      · have := hc.1 h
        rw [hpost] at this
        exact absurd this (by decide)
      · rw [he, hpost]
        exact fun h => PresenceEvent.noConfusion h

/-- C9 at a concrete frame: a face at instant 9 after a logged absence, with
the log file failing to open. -/
theorem C9_log_failure_not_retried_witness :
    (processFrame ⟨7, true, 30 * time.Second⟩
        ⟨[mkRect 0 0 200 200], [], [], 9, true⟩).1 =
      (processFrame ⟨7, true, 30 * time.Second⟩
        ⟨[mkRect 0 0 200 200], [], [], 9, false⟩).1 ∧
    Effect.callLogDetectedFace ∉
      (processFrame (processFrame ⟨7, true, 30 * time.Second⟩
        ⟨[mkRect 0 0 200 200], [], [], 9, true⟩).1
        ⟨[mkRect 0 0 200 200], [], [], 10, true⟩).2 :=
  ⟨(C9_log_failure_not_retried ⟨7, true, 30 * time.Second⟩
      ⟨[mkRect 0 0 200 200], [], [], 9, true⟩ rfl (by decide)).1,
    ((C9_log_failure_not_retried ⟨7, true, 30 * time.Second⟩
      ⟨[mkRect 0 0 200 200], [], [], 9, true⟩ rfl (by decide)).2.2.2.2.2
      ⟨[mkRect 0 0 200 200], [], [], 10, true⟩).1⟩

/-- C10: the presence signal of `processFrame` is exactly "FrontalFaces
non-empty or SideFaces non-empty". A frame with a frontal face or a side face is
treated as presence: the sighting time becomes the frame time, `faceAbsentLogged`
is cleared, and `PresenceRegained` (with the log call) is produced exactly when an
absence had been logged. A frame with neither is treated as absence whatever its
eyes: the sighting time is kept, no log call is made, and the absence branch
alone decides the detector and the event. Hence two frames that agree on whether
the frontal list is empty and on whether the side list is empty, taken at the
same time from the same detector, give the same event and the same detector
afterwards, whatever their eyes and log outcome. -/
theorem C10_presence_signal :
    (∀ r : detectionResult,
      facesDetected r = true ↔ r.FrontalFaces ≠ [] ∨ r.SideFaces ≠ []) ∧
    (∀ r1 r2 : detectionResult,
      (r1.FrontalFaces = [] ↔ r2.FrontalFaces = []) →
      (r1.SideFaces = [] ↔ r2.SideFaces = []) → facesDetected r1 = facesDetected r2) ∧
    (∀ (fd : facialDetector) (a b : Frame),
      (a.frontalFaces = [] ↔ b.frontalFaces = []) →
      (a.sideFaces = [] ↔ b.sideFaces = []) → a.currentTime = b.currentTime →
      (processFrame fd a).1 = (processFrame fd b).1 ∧ frameEvent fd a = frameEvent fd b) ∧
    (∀ (fd : facialDetector) (img : Frame), img.frontalFaces = [] → img.sideFaces = [] →
      img.seen = false ∧
      (processFrame fd img).1.lastFaceDetectedTime = fd.lastFaceDetectedTime ∧
      frameEvent fd img ≠ PresenceEvent.PresenceRegained ∧
      Effect.callLogDetectedFace ∉ (processFrame fd img).2 ∧
      (processFrame fd img).1 =
        (if time.IsZero fd.lastFaceDetectedTime = false ∧
            time.Sub img.currentTime fd.lastFaceDetectedTime ≥ fd.faceTimeout ∧
            fd.faceAbsentLogged = false
          then { fd with faceAbsentLogged := true } else fd) ∧
      frameEvent fd img =
        (if time.IsZero fd.lastFaceDetectedTime = false ∧
            time.Sub img.currentTime fd.lastFaceDetectedTime ≥ fd.faceTimeout ∧
            fd.faceAbsentLogged = false
          then PresenceEvent.AbsenceConfirmed else PresenceEvent.None)) ∧
    (∀ (fd : facialDetector) (img : Frame),
      img.frontalFaces ≠ [] ∨ img.sideFaces ≠ [] →
      img.seen = true ∧
      (processFrame fd img).1 =
        { lastFaceDetectedTime := img.currentTime, faceAbsentLogged := false,
          faceTimeout := fd.faceTimeout } ∧
      frameEvent fd img =
        (if fd.faceAbsentLogged then PresenceEvent.PresenceRegained
          else PresenceEvent.None) ∧
      (Effect.callLogDetectedFace ∈ (processFrame fd img).2 ↔
        fd.faceAbsentLogged = true)) := by
  have hsig : ∀ r : detectionResult,
      facesDetected r = true ↔ r.FrontalFaces ≠ [] ∨ r.SideFaces ≠ [] := by
    intro r
    simp [facesDetected, List.length_pos]
  have hagree : ∀ r1 r2 : detectionResult,
      (r1.FrontalFaces = [] ↔ r2.FrontalFaces = []) →
      (r1.SideFaces = [] ↔ r2.SideFaces = []) → facesDetected r1 = facesDetected r2 := by
    intro r1 r2 hf hsd
    rw [Bool.eq_iff_iff, hsig, hsig]
    exact or_congr (not_congr hf) (not_congr hsd)
  refine ⟨hsig, hagree, ?_, ?_, ?_⟩
  · intro fd a b hf hsd ht
    have hab : a.seen = b.seen := hagree (detectAll a) (detectAll b) hf hsd
    cases hb : b.seen
    · rw [hb] at hab
      obtain ⟨hsa, hea, _⟩ := processFrame_unseen fd a hab
      obtain ⟨hsb, heb, _⟩ := processFrame_unseen fd b hb
      rw [hsa, hea, hsb, heb, ht]
      exact ⟨rfl, rfl⟩
    · rw [hb] at hab
      obtain ⟨hsa, hea, _⟩ := processFrame_seen fd a hab
      obtain ⟨hsb, heb, _⟩ := processFrame_seen fd b hb
      rw [hsa, hea, hsb, heb, ht]
      exact ⟨rfl, rfl⟩
  · intro fd img hf hsd
    have hno : img.seen = false := by
      rw [← Bool.not_eq_true, seen_iff]
      simp [hf, hsd]
    obtain ⟨hs, he, hc⟩ := processFrame_unseen fd img hno
    refine ⟨hno, ?_, ?_, hc, hs, he⟩
    · rw [hs]; split_ifs <;> rfl
    · rw [he]; split_ifs <;> exact fun h => PresenceEvent.noConfusion h
  · intro fd img hface
    have hyes : img.seen = true := (seen_iff img).2 hface
    obtain ⟨hs, he, hc⟩ := processFrame_seen fd img hyes
    exact ⟨hyes, hs, he, hc⟩

/-- C10 at concrete frames, after a logged absence: a frame with only a side
face counts as presence (the sighting time moves to the frame time and
`PresenceRegained` is produced); one frontal face with no eyes and two frontal
faces with an eye and a failing log give the same event and detector; eyes
without a face do not count as presence. -/
theorem C10_presence_signal_witness :
    ((processFrame ⟨7, true, 30 * time.Second⟩
          ⟨[], [mkRect 0 0 200 200], [], 9, false⟩).1 = ⟨9, false, 30 * time.Second⟩ ∧
      frameEvent ⟨7, true, 30 * time.Second⟩ ⟨[], [mkRect 0 0 200 200], [], 9, false⟩ =
        PresenceEvent.PresenceRegained) ∧
    ((processFrame ⟨7, true, 30 * time.Second⟩ ⟨[mkRect 0 0 200 200], [], [], 9, false⟩).1 =
        (processFrame ⟨7, true, 30 * time.Second⟩
          ⟨[mkRect 0 0 200 200, mkRect 5 5 300 300], [], [mkRect 10 10 40 30], 9, true⟩).1 ∧
      frameEvent ⟨7, true, 30 * time.Second⟩ ⟨[mkRect 0 0 200 200], [], [], 9, false⟩ =
        frameEvent ⟨7, true, 30 * time.Second⟩
          ⟨[mkRect 0 0 200 200, mkRect 5 5 300 300], [], [mkRect 10 10 40 30], 9, true⟩) ∧
    ((⟨[], [], [mkRect 10 10 40 30], 9, false⟩ : Frame).seen = false ∧
      (processFrame ⟨7, true, 30 * time.Second⟩
          ⟨[], [], [mkRect 10 10 40 30], 9, false⟩).1.lastFaceDetectedTime = 7) :=
  ⟨⟨(C10_presence_signal.2.2.2.2 ⟨7, true, 30 * time.Second⟩
        ⟨[], [mkRect 0 0 200 200], [], 9, false⟩ (Or.inr (by decide))).2.1,
      (C10_presence_signal.2.2.2.2 ⟨7, true, 30 * time.Second⟩
        ⟨[], [mkRect 0 0 200 200], [], 9, false⟩ (Or.inr (by decide))).2.2.1⟩,
    C10_presence_signal.2.2.1 ⟨7, true, 30 * time.Second⟩
      ⟨[mkRect 0 0 200 200], [], [], 9, false⟩
      ⟨[mkRect 0 0 200 200, mkRect 5 5 300 300], [], [mkRect 10 10 40 30], 9, true⟩
      (by decide) (by decide) rfl,
    ⟨(C10_presence_signal.2.2.2.1 ⟨7, true, 30 * time.Second⟩
        ⟨[], [], [mkRect 10 10 40 30], 9, false⟩ rfl rfl).1,
      (C10_presence_signal.2.2.2.1 ⟨7, true, 30 * time.Second⟩
        ⟨[], [], [mkRect 10 10 40 30], 9, false⟩ rfl rfl).2.1⟩⟩

end FacialRecognition
